import Mathlib

/-!
Verification of the frontpanels panel-geometry core.

Shallow embedding of the Go sources:
- `pkg/geometry`: a 2D point (modelled from the spec, the file is not in the
  tree; the spec describes it as an immutable pair of real coordinates in mm).
- `pkg/features`: `Purpose`, `Alignment`, `Line`, `Circle`, `Text` and their
  constructors / option functions. Go interface type `Feature` becomes a
  closed sum with an extra `unknown` constructor standing for any other
  implementor of the interface (the classifier's `default` branch).
- `pkg/format/eurorack`, `pkg/format/intellijel`, `pkg/format/pulplogic`:
  format constants and methods. Millimetre quantities are embedded as `ℚ`
  (all source constants are finite decimals, so this is exact).
- `pkg/panel`: the `Panel` interface (a closed sum over the three formats)
  and the corner-coordinate helpers.
- `pkg/sources/panel`: `GeneratePanelOutlineFeatures`.
- `cmd/blind`: `panelHeaderFooter`, `randomLines`, `collectPrimitives`.
  The process-wide random source is embedded as oracle streams: a stream of
  `rand.Float64()` results (each in `[0,1)`) and a stream of `rand.Intn(3)`
  results (each in `Fin 3`). The gerber conversion (`mkline` etc.) is out of
  scope; the classifier buckets hold the routed features themselves, and the
  `log.Printf` diagnostics are modelled as a warning counter.
-/

namespace Frontpanels

/-- Modelled from the spec: `pkg/geometry.Point` (file absent from the tree) —
an immutable pair of real-valued coordinates (X, Y) in millimetres. -/
structure Point where
  x : ℚ
  y : ℚ
deriving DecidableEq, Repr

/-- `features.Purpose` (pkg/features/common.go). `Marking` is the Go zero
value. -/
inductive Purpose where
  | Marking
  | Cutout
deriving DecidableEq, Repr

/-- `features.Alignment` (pkg/features/common.go). `TopLeft` is the Go zero
value. -/
inductive Alignment where
  | TopLeft
  | TopCentre
  | TopRight
  | CentreLeft
  | Centre
  | CentreRight
  | BottomLeft
  | BottomCentre
  | BottomRight
deriving DecidableEq, Repr

/-- `features.Line` (pkg/features/line.go). Go's `End` field is named `stop`
here because `end` is a Lean keyword. -/
structure Line where
  start : Point
  stop : Point
  thickness : ℚ
  purpose : Purpose
deriving DecidableEq, Repr

/-- `features.NewLine`. The Go constructor panics on negative thickness; all
callers in the repository pass literal non-negative thicknesses, so that
branch is unreachable and is not modelled. The `Purpose` field is left at its
Go zero value `Marking`. -/
def NewLine (start stop : Point) (thickness : ℚ) : Line :=
  { start := start, stop := stop, thickness := thickness, purpose := .Marking }

/-- `(*features.Line).SetPurpose`, as a functional update. -/
def Line.SetPurpose (l : Line) (purpose : Purpose) : Line :=
  { l with purpose := purpose }

/-- `features.Circle` (pkg/features/circle.go). -/
structure Circle where
  origin : Point
  radius : ℚ
  purpose : Purpose
deriving DecidableEq, Repr

/-- `features.NewCircle`. The Go constructor panics on negative radius; all
callers pass `MountingHoleDiameter()/2 > 0`, so that branch is unreachable
and is not modelled. -/
def NewCircle (origin : Point) (radius : ℚ) : Circle :=
  { origin := origin, radius := radius, purpose := .Marking }

/-- `(*features.Circle).SetPurpose`, as a functional update. -/
def Circle.SetPurpose (c : Circle) (purpose : Purpose) : Circle :=
  { c with purpose := purpose }

/-- `features.Text` (pkg/features/text.go). -/
structure Text where
  origin : Point
  alignment : Alignment
  purpose : Purpose
  text : String
  size : ℚ
  rotate : ℚ
deriving DecidableEq, Repr

/-- `features.TextOptionFunc` — functions mutating a `Text`, embedded as
functional updates. -/
def TextOptionFunc : Type := Text → Text

/-- `features.WithAlignment`. -/
def WithAlignment (align : Alignment) : TextOptionFunc :=
  fun t => { t with alignment := align }

/-- `features.WithSize`. -/
def WithSize (size : ℚ) : TextOptionFunc :=
  fun t => { t with size := size }

/-- `features.WithRotation`. -/
def WithRotation (r : ℚ) : TextOptionFunc :=
  fun t => { t with rotate := r }

/-- `features.NewText`: builds a `Text` with `Size` 14.0 and the remaining
fields at their Go zero values (`TopLeft`, `Marking`, rotation 0), then
applies each option in order. -/
def NewText (origin : Point) (s : String) (options : List TextOptionFunc) : Text :=
  options.foldl (fun t opt => opt t)
    { origin := origin, alignment := .TopLeft, purpose := .Marking,
      text := s, size := 14.0, rotate := 0 }

/-- The Go `features.Feature` interface, as a closed sum. The `unknown`
constructor stands for any implementor other than the three concrete feature
types (it still carries a purpose, as the interface requires). -/
inductive Feature where
  | line (l : Line)
  | circle (c : Circle)
  | text (t : Text)
  | unknown (purpose : Purpose)
deriving DecidableEq, Repr

namespace eurorack

/-- `eurorack.PanelHeight3U`. -/
def PanelHeight3U : ℚ := 128.5

/-- `eurorack.ExtraMountingHolesThreshold`. -/
def ExtraMountingHolesThreshold : Int := 8

/-- `eurorack.MountingHolesLeftOffset`. -/
def MountingHolesLeftOffset : ℚ := 7.5

/-- `eurorack.MountingHoleTopY3U`. -/
def MountingHoleTopY3U : ℚ := PanelHeight3U - 3.00

/-- `eurorack.MountingHoleBottomY3U`. -/
def MountingHoleBottomY3U : ℚ := 3.00

/-- `eurorack.MountingHoleDiameter`. -/
def MountingHoleDiameter : ℚ := 3.2

/-- `eurorack.HP` — horizontal pitch in millimetres. -/
def HP : ℚ := 5.08

/-- `eurorack.HorizontalFit`. -/
def HorizontalFit : ℚ := 0.25

/-- `eurorack.CornerRadius`. -/
def CornerRadius : ℚ := 0.0

/-- `eurorack.RailHeightFromMountingHole`. -/
def RailHeightFromMountingHole : ℚ := 5.0

end eurorack

/-- `eurorack.Eurorack` — the format value, carrying the width in HP units
(Go field `HP int`, named `hp` here to avoid clashing with the pitch
constant). -/
structure Eurorack where
  hp : Int
deriving DecidableEq, Repr

/-- `eurorack.NewEurorack`. -/
def NewEurorack (hp : Int) : Eurorack := { hp := hp }

/-- `(Eurorack).Width`. -/
def Eurorack.Width (e : Eurorack) : ℚ :=
  if e.hp = 1 then 5.00 else eurorack.HP * (e.hp : ℚ)

/-- `(Eurorack).Height`. -/
def Eurorack.Height (_ : Eurorack) : ℚ := eurorack.PanelHeight3U

/-- `(Eurorack).MountingHoleDiameter`. -/
def Eurorack.MountingHoleDiameter (_ : Eurorack) : ℚ := eurorack.MountingHoleDiameter

/-- `(Eurorack).MountingHoles`. -/
def Eurorack.MountingHoles (e : Eurorack) : List Point :=
  let lhsx : ℚ := if e.hp = 1 then e.Width / 2.0 else eurorack.MountingHolesLeftOffset
  let holes : List Point :=
    [{ x := lhsx, y := eurorack.MountingHoleBottomY3U },
     { x := lhsx, y := eurorack.MountingHoleTopY3U }]
  if e.hp > eurorack.ExtraMountingHolesThreshold then
    let rhsx : ℚ := eurorack.MountingHolesLeftOffset + eurorack.HP * ((e.hp - 3 : Int) : ℚ)
    holes ++ [{ x := rhsx, y := eurorack.MountingHoleBottomY3U },
              { x := rhsx, y := eurorack.MountingHoleTopY3U }]
  else
    holes

/-- `(Eurorack).HorizontalFit`. -/
def Eurorack.HorizontalFit (e : Eurorack) : ℚ :=
  if e.hp = 1 then 0.0 else eurorack.HorizontalFit

/-- `(Eurorack).CornerRadius`. -/
def Eurorack.CornerRadius (_ : Eurorack) : ℚ := eurorack.CornerRadius

/-- `(Eurorack).RailHeightFromMountingHole`. -/
def Eurorack.RailHeightFromMountingHole (_ : Eurorack) : ℚ :=
  eurorack.RailHeightFromMountingHole

/-- `(Eurorack).MountingHoleTopY`. -/
def Eurorack.MountingHoleTopY (_ : Eurorack) : ℚ := eurorack.MountingHoleTopY3U

/-- `(Eurorack).MountingHoleBottomY`. -/
def Eurorack.MountingHoleBottomY (_ : Eurorack) : ℚ := eurorack.MountingHoleBottomY3U

/-- `(Eurorack).HeaderLocation`. -/
def Eurorack.HeaderLocation (e : Eurorack) : Point :=
  { x := e.Width / 2, y := e.MountingHoleTopY }

/-- `(Eurorack).FooterLocation`. -/
def Eurorack.FooterLocation (e : Eurorack) : Point :=
  { x := e.Width / 2, y := e.MountingHoleBottomY }

namespace intellijel

/-- `intellijel.PanelHeight1U`. -/
def PanelHeight1U : ℚ := 39.65

/-- `intellijel.ExtraMountingHolesThreshold`. -/
def ExtraMountingHolesThreshold : Int := 6

/-- `intellijel.MountingHolesLeftOffset`. -/
def MountingHolesLeftOffset : ℚ := eurorack.MountingHolesLeftOffset

/-- `intellijel.MountingHoleTopY1U`. -/
def MountingHoleTopY1U : ℚ := PanelHeight1U - 3.00

/-- `intellijel.MountingHoleBottomY1U`. -/
def MountingHoleBottomY1U : ℚ := 3.00

/-- `intellijel.MountingHoleDiameter`. -/
def MountingHoleDiameter : ℚ := eurorack.MountingHoleDiameter

/-- `intellijel.HP`. -/
def HP : ℚ := eurorack.HP

/-- `intellijel.HorizontalFit`. -/
def HorizontalFit : ℚ := 0.25

/-- `intellijel.CornerRadius`. -/
def CornerRadius : ℚ := 0.0

/-- `intellijel.RailHeightFromMountingHole`. -/
def RailHeightFromMountingHole : ℚ := eurorack.RailHeightFromMountingHole

end intellijel

/-- `intellijel.Intellijel` — the format value, width in units. -/
structure Intellijel where
  hp : Int
deriving DecidableEq, Repr

/-- `intellijel.NewIntellijel`. -/
def NewIntellijel (hp : Int) : Intellijel := { hp := hp }

/-- `(Intellijel).Width`. -/
def Intellijel.Width (i : Intellijel) : ℚ :=
  if i.hp = 1 then 5.00 else intellijel.HP * (i.hp : ℚ)

/-- `(Intellijel).Height`. -/
def Intellijel.Height (_ : Intellijel) : ℚ := intellijel.PanelHeight1U

/-- `(Intellijel).MountingHoleDiameter`. -/
def Intellijel.MountingHoleDiameter (_ : Intellijel) : ℚ := intellijel.MountingHoleDiameter

/-- `(Intellijel).MountingHoles`. -/
def Intellijel.MountingHoles (i : Intellijel) : List Point :=
  let lhsx : ℚ := if i.hp = 1 then i.Width / 2.0 else intellijel.MountingHolesLeftOffset
  let holes : List Point :=
    [{ x := lhsx, y := intellijel.MountingHoleBottomY1U },
     { x := lhsx, y := intellijel.MountingHoleTopY1U }]
  if i.hp > intellijel.ExtraMountingHolesThreshold then
    let rhsx : ℚ := intellijel.MountingHolesLeftOffset + intellijel.HP * ((i.hp - 3 : Int) : ℚ)
    holes ++ [{ x := rhsx, y := intellijel.MountingHoleBottomY1U },
              { x := rhsx, y := intellijel.MountingHoleTopY1U }]
  else
    holes

/-- `(Intellijel).HorizontalFit`. -/
def Intellijel.HorizontalFit (i : Intellijel) : ℚ :=
  if i.hp = 1 then 0.00 else intellijel.HorizontalFit

/-- `(Intellijel).CornerRadius`. -/
def Intellijel.CornerRadius (_ : Intellijel) : ℚ := intellijel.CornerRadius

/-- `(Intellijel).RailHeightFromMountingHole`. -/
def Intellijel.RailHeightFromMountingHole (_ : Intellijel) : ℚ :=
  intellijel.RailHeightFromMountingHole

/-- `(Intellijel).MountingHoleTopY`. -/
def Intellijel.MountingHoleTopY (_ : Intellijel) : ℚ := intellijel.MountingHoleTopY1U

/-- `(Intellijel).MountingHoleBottomY`. -/
def Intellijel.MountingHoleBottomY (_ : Intellijel) : ℚ := intellijel.MountingHoleBottomY1U

/-- `(Intellijel).HeaderLocation`. -/
def Intellijel.HeaderLocation (i : Intellijel) : Point :=
  { x := i.Width / 2.0, y := i.MountingHoleTopY }

/-- `(Intellijel).FooterLocation`. -/
def Intellijel.FooterLocation (i : Intellijel) : Point :=
  { x := i.Width / 2.0, y := i.MountingHoleBottomY }

namespace pulplogic

/-- `pulplogic.inch`. -/
def inch : ℚ := 25.4

/-- `pulplogic.PanelHeight1U`. -/
def PanelHeight1U : ℚ := 1.70 * inch

/-- `pulplogic.ExtraMountingHolesThreshold`. -/
def ExtraMountingHolesThreshold : Int := 6

/-- `pulplogic.MountingHolesLeftOffset`. -/
def MountingHolesLeftOffset : ℚ := 0.2 * inch

/-- `pulplogic.MountingHolesRightOffset`. -/
def MountingHolesRightOffset : ℚ := 0.2 * inch

/-- `pulplogic.MountingHoleTopY1U`. -/
def MountingHoleTopY1U : ℚ := PanelHeight1U - (0.118 * inch)

/-- `pulplogic.MountingHoleBottomY1U`. -/
def MountingHoleBottomY1U : ℚ := 0.118 * inch

/-- `pulplogic.MountingHoleDiameter`. -/
def MountingHoleDiameter : ℚ := 0.125 * inch

/-- `pulplogic.HP`. -/
def HP : ℚ := eurorack.HP

/-- `pulplogic.HorizontalFit`. -/
def HorizontalFit : ℚ := eurorack.HorizontalFit

/-- `pulplogic.CornerRadius`. -/
def CornerRadius : ℚ := 0.0

/-- `pulplogic.RailHeightFromMountingHole`. -/
def RailHeightFromMountingHole : ℚ := (0.291 / 2.0) * inch

end pulplogic

/-- `pulplogic.Pulplogic` — the format value, width in units. -/
structure Pulplogic where
  hp : Int
deriving DecidableEq, Repr

/-- `pulplogic.NewPulplogic`. -/
def NewPulplogic (hp : Int) : Pulplogic := { hp := hp }

/-- `(Pulplogic).Width`. -/
def Pulplogic.Width (p : Pulplogic) : ℚ :=
  if p.hp = 1 then 5.00 else pulplogic.HP * (p.hp : ℚ)

/-- `(Pulplogic).Height`. -/
def Pulplogic.Height (_ : Pulplogic) : ℚ := pulplogic.PanelHeight1U

/-- `(Pulplogic).MountingHoleDiameter`. -/
def Pulplogic.MountingHoleDiameter (_ : Pulplogic) : ℚ := pulplogic.MountingHoleDiameter

/-- `(Pulplogic).MountingHoles`. Note the right pair is placed relative to
the right panel edge (`Width - MountingHolesRightOffset`), unlike the other
two formats. -/
def Pulplogic.MountingHoles (p : Pulplogic) : List Point :=
  let lhsx : ℚ := if p.hp = 1 then p.Width / 2.0 else pulplogic.MountingHolesLeftOffset
  let holes : List Point :=
    [{ x := lhsx, y := pulplogic.MountingHoleBottomY1U },
     { x := lhsx, y := pulplogic.MountingHoleTopY1U }]
  if p.hp > pulplogic.ExtraMountingHolesThreshold then
    let rhsx : ℚ := p.Width - pulplogic.MountingHolesRightOffset
    holes ++ [{ x := rhsx, y := pulplogic.MountingHoleBottomY1U },
              { x := rhsx, y := pulplogic.MountingHoleTopY1U }]
  else
    holes

/-- `(Pulplogic).HorizontalFit`. -/
def Pulplogic.HorizontalFit (p : Pulplogic) : ℚ :=
  if p.hp = 1 then 0.00 else pulplogic.HorizontalFit

/-- `(Pulplogic).CornerRadius`. -/
def Pulplogic.CornerRadius (_ : Pulplogic) : ℚ := pulplogic.CornerRadius

/-- `(Pulplogic).RailHeightFromMountingHole`. -/
def Pulplogic.RailHeightFromMountingHole (_ : Pulplogic) : ℚ :=
  pulplogic.RailHeightFromMountingHole

/-- `(Pulplogic).MountingHoleTopY`. -/
def Pulplogic.MountingHoleTopY (_ : Pulplogic) : ℚ := pulplogic.MountingHoleTopY1U

/-- `(Pulplogic).MountingHoleBottomY`. -/
def Pulplogic.MountingHoleBottomY (_ : Pulplogic) : ℚ := pulplogic.MountingHoleBottomY1U

/-- `(Pulplogic).HeaderLocation`. -/
def Pulplogic.HeaderLocation (p : Pulplogic) : Point :=
  { x := p.Width / 2.0, y := p.MountingHoleTopY }

/-- `(Pulplogic).FooterLocation`. -/
def Pulplogic.FooterLocation (p : Pulplogic) : Point :=
  { x := p.Width / 2.0, y := p.MountingHoleBottomY }

/-- The `panel.Panel` interface (pkg/panel). In the repository exactly the
three format types implement it, so it is embedded as a closed sum. -/
inductive Panel where
  | eurorack (e : Eurorack)
  | intellijel (i : Intellijel)
  | pulplogic (p : Pulplogic)
deriving DecidableEq, Repr

/-- Interface dispatch for `MountingHoles`. -/
def Panel.MountingHoles : Panel → List Point
  | .eurorack e => e.MountingHoles
  | .intellijel i => i.MountingHoles
  | .pulplogic p => p.MountingHoles

/-- Interface dispatch for `MountingHoleDiameter`. -/
def Panel.MountingHoleDiameter : Panel → ℚ
  | .eurorack e => e.MountingHoleDiameter
  | .intellijel i => i.MountingHoleDiameter
  | .pulplogic p => p.MountingHoleDiameter

/-- Interface dispatch for `Height`. -/
def Panel.Height : Panel → ℚ
  | .eurorack e => e.Height
  | .intellijel i => i.Height
  | .pulplogic p => p.Height

/-- Interface dispatch for `Width`. -/
def Panel.Width : Panel → ℚ
  | .eurorack e => e.Width
  | .intellijel i => i.Width
  | .pulplogic p => p.Width

/-- Interface dispatch for `HorizontalFit`. -/
def Panel.HorizontalFit : Panel → ℚ
  | .eurorack e => e.HorizontalFit
  | .intellijel i => i.HorizontalFit
  | .pulplogic p => p.HorizontalFit

/-- Interface dispatch for `CornerRadius`. -/
def Panel.CornerRadius : Panel → ℚ
  | .eurorack e => e.CornerRadius
  | .intellijel i => i.CornerRadius
  | .pulplogic p => p.CornerRadius

/-- Interface dispatch for `RailHeightFromMountingHole`. -/
def Panel.RailHeightFromMountingHole : Panel → ℚ
  | .eurorack e => e.RailHeightFromMountingHole
  | .intellijel i => i.RailHeightFromMountingHole
  | .pulplogic p => p.RailHeightFromMountingHole

/-- Interface dispatch for `MountingHoleTopY`. -/
def Panel.MountingHoleTopY : Panel → ℚ
  | .eurorack e => e.MountingHoleTopY
  | .intellijel i => i.MountingHoleTopY
  | .pulplogic p => p.MountingHoleTopY

/-- Interface dispatch for `MountingHoleBottomY`. -/
def Panel.MountingHoleBottomY : Panel → ℚ
  | .eurorack e => e.MountingHoleBottomY
  | .intellijel i => i.MountingHoleBottomY
  | .pulplogic p => p.MountingHoleBottomY

/-- Interface dispatch for `HeaderLocation`. -/
def Panel.HeaderLocation : Panel → Point
  | .eurorack e => e.HeaderLocation
  | .intellijel i => i.HeaderLocation
  | .pulplogic p => p.HeaderLocation

/-- Interface dispatch for `FooterLocation`. -/
def Panel.FooterLocation : Panel → Point
  | .eurorack e => e.FooterLocation
  | .intellijel i => i.FooterLocation
  | .pulplogic p => p.FooterLocation

/-- Statement-side helper: the width parameter (in format units) a panel
value was constructed from (the Go struct field `HP`). -/
def Panel.hp : Panel → Int
  | .eurorack e => e.hp
  | .intellijel i => i.hp
  | .pulplogic p => p.hp

/-- Statement-side helper: the format's `ExtraMountingHolesThreshold`
constant. -/
def Panel.threshold : Panel → Int
  | .eurorack _ => eurorack.ExtraMountingHolesThreshold
  | .intellijel _ => intellijel.ExtraMountingHolesThreshold
  | .pulplogic _ => pulplogic.ExtraMountingHolesThreshold

namespace panel

/-- `panel.LeftX` (pkg/panel). -/
def LeftX (spec : Panel) : ℚ := spec.HorizontalFit / 2

/-- `panel.RightX` (pkg/panel). -/
def RightX (spec : Panel) : ℚ := spec.Width - spec.HorizontalFit / 2

/-- `panel.TopY` (pkg/panel). -/
def TopY (spec : Panel) : ℚ := spec.Height

/-- `panel.BottomY` (pkg/panel). -/
def BottomY (_ : Panel) : ℚ := 0

/-- `panel.TopLeft` (pkg/panel). -/
def TopLeft (spec : Panel) : Point := { x := LeftX spec, y := TopY spec }

/-- `panel.TopRight` (pkg/panel). -/
def TopRight (spec : Panel) : Point := { x := RightX spec, y := TopY spec }

/-- `panel.BottomLeft` (pkg/panel). -/
def BottomLeft (spec : Panel) : Point := { x := LeftX spec, y := BottomY spec }

/-- `panel.BottomRight` (pkg/panel). -/
def BottomRight (spec : Panel) : Point := { x := RightX spec, y := BottomY spec }

end panel

/-- `panel.GeneratePanelOutlineFeatures` (pkg/sources/panel): four Cutout
boundary lines, then one Cutout circle per mounting hole, appended in a
loop. -/
def GeneratePanelOutlineFeatures (p : Panel) : List Feature :=
  let top := (NewLine (panel.TopLeft p) (panel.TopRight p) 0.1).SetPurpose .Cutout
  let bottom := (NewLine (panel.BottomLeft p) (panel.BottomRight p) 0.1).SetPurpose .Cutout
  let left := (NewLine (panel.TopLeft p) (panel.BottomLeft p) 0.1).SetPurpose .Cutout
  let right := (NewLine (panel.TopRight p) (panel.BottomRight p) 0.1).SetPurpose .Cutout
  let f : List Feature := [.line top, .line bottom, .line left, .line right]
  (p.MountingHoles).foldl
    (fun acc centre =>
      acc ++ [.circle ((NewCircle centre (p.MountingHoleDiameter / 2.0)).SetPurpose .Cutout)])
    f

/-- `panelHeaderFooter` (cmd/blind/blind.go): a text feature per non-empty
string, centre-aligned, size 16. -/
def panelHeaderFooter (p : Panel) (header footer : String) : List Feature :=
  let f : List Feature := []
  let f := if header ≠ "" then
    f ++ [.text (NewText { x := p.Width / 2.0, y := p.MountingHoleTopY } header
      [WithAlignment .Centre, WithSize 16.0])]
  else f
  if footer ≠ "" then
    f ++ [.text (NewText { x := p.Width / 2.0, y := p.MountingHoleBottomY } footer
      [WithAlignment .Centre, WithSize 16.0])]
  else f

/-- `randomLines` (cmd/blind/blind.go). The process-wide random source is
embedded as oracles: `floats k` is the k-th `rand.Float64()` result and
`ints i` the `rand.Intn(3)` result for line i. Line i consumes float draws
4i..4i+3 (start.x, start.y, end.x, end.y, in Go evaluation order). -/
def randomLines (p : Panel) (n : Nat) (floats : Nat → ℚ) (ints : Nat → Fin 3) :
    List Feature :=
  let rxy : Nat → Point := fun k =>
    let xspace := p.Width - p.HorizontalFit * 2.0
    let endheight := p.RailHeightFromMountingHole + p.MountingHoleBottomY
    let yspace := p.Height - endheight * 2.0
    let xoffset := p.HorizontalFit * 2.0
    let yoffset := endheight
    { x := xoffset + floats k * xspace, y := yoffset + floats (k + 1) * yspace }
  (List.range n).map fun i =>
    .line (NewLine (rxy (4 * i)) (rxy (4 * i + 2)) (0.1 * (((ints i).val : ℚ))))

/-- The `primitives` buckets (cmd/blind/blind.go). The gerber conversion is
out of scope, so each bucket holds the routed features themselves; the
`log.Printf` warning diagnostics are modelled by the `warnings` counter. -/
structure Primitives where
  outlines : List Feature
  drills : List Feature
  silkscreens : List Feature
  warnings : Nat
deriving DecidableEq, Repr

/-- `newprimitives`. -/
def newprimitives : Primitives :=
  { outlines := [], drills := [], silkscreens := [], warnings := 0 }

/-- `(*primitives).addoutline`. -/
def Primitives.addoutline (p : Primitives) (pp : Feature) : Primitives :=
  { p with outlines := p.outlines ++ [pp] }

/-- `(*primitives).addsilkscreen`. -/
def Primitives.addsilkscreen (p : Primitives) (pp : Feature) : Primitives :=
  { p with silkscreens := p.silkscreens ++ [pp] }

/-- `(*primitives).adddrill`. -/
def Primitives.adddrill (p : Primitives) (pp : Feature) : Primitives :=
  { p with drills := p.drills ++ [pp] }

/-- A `log.Printf` warning diagnostic. -/
def Primitives.warn (p : Primitives) : Primitives :=
  { p with warnings := p.warnings + 1 }

/-- One iteration of the `collectPrimitives` loop body: the type switch over
the feature's runtime variant and the purpose dispatch. -/
def collectOne (prims : Primitives) (item : Feature) : Primitives :=
  match item with
  | .line l =>
    if l.purpose = .Cutout then prims.addoutline (.line l)
    else prims.addsilkscreen (.line l)
  | .text t =>
    if t.purpose = .Cutout then (prims.warn).addoutline (.text t)
    else prims.addsilkscreen (.text t)
  | .circle c =>
    if c.purpose = .Cutout then prims.adddrill (.circle c)
    else prims.addsilkscreen (.circle c)
  | .unknown _ => prims.warn

/-- `collectPrimitives` (cmd/blind/blind.go): fold the loop body over the
feature list. -/
def collectPrimitives (feats : List Feature) (prims : Primitives) : Primitives :=
  feats.foldl collectOne prims

/-- Modelled from the spec: the single parameterized mounting-hole placement
rule that, per the spec, all three format variants instantiate with
per-variant constant tables. The right-pair X is the shared affine formula
`rightBase + pitch * hp`; `rightBase` is the per-variant constant. -/
structure FormatConstants where
  pitch : ℚ
  leftOffset : ℚ
  rightBase : ℚ
  bottomY : ℚ
  topY : ℚ
  threshold : Int
deriving DecidableEq, Repr

/-- Modelled from the spec: the parameterized placement rule — left pair at
the left-offset constant and the two Y constants, recentred to `width/2` at
1 unit, plus a vertically mirrored right pair beyond the threshold at the
shared right-offset formula. -/
def mountingHolesSpec (c : FormatConstants) (hp : Int) : List Point :=
  let width : ℚ := if hp = 1 then 5.00 else c.pitch * (hp : ℚ)
  let lhsx : ℚ := if hp = 1 then width / 2.0 else c.leftOffset
  let holes : List Point :=
    [{ x := lhsx, y := c.bottomY }, { x := lhsx, y := c.topY }]
  if hp > c.threshold then
    let rhsx : ℚ := c.rightBase + c.pitch * (hp : ℚ)
    holes ++ [{ x := rhsx, y := c.bottomY }, { x := rhsx, y := c.topY }]
  else
    holes

/-- The Eurorack constant table. Its right-base constant is derived from the
format's own constants: `rhsx = leftOffset + pitch*(hp-3) = (leftOffset -
3*pitch) + pitch*hp`. -/
def eurorackTable : FormatConstants :=
  { pitch := eurorack.HP
    leftOffset := eurorack.MountingHolesLeftOffset
    rightBase := eurorack.MountingHolesLeftOffset - 3 * eurorack.HP
    bottomY := eurorack.MountingHoleBottomY3U
    topY := eurorack.MountingHoleTopY3U
    threshold := eurorack.ExtraMountingHolesThreshold }

/-- The Intellijel constant table (same right-base derivation as
Eurorack). -/
def intellijelTable : FormatConstants :=
  { pitch := intellijel.HP
    leftOffset := intellijel.MountingHolesLeftOffset
    rightBase := intellijel.MountingHolesLeftOffset - 3 * intellijel.HP
    bottomY := intellijel.MountingHoleBottomY1U
    topY := intellijel.MountingHoleTopY1U
    threshold := intellijel.ExtraMountingHolesThreshold }

/-- The Pulplogic constant table. Its right-base constant is derived from the
format's own constants: `rhsx = width - rightOffset = (-rightOffset) +
pitch*hp` for every width beyond the threshold. -/
def pulplogicTable : FormatConstants :=
  { pitch := pulplogic.HP
    leftOffset := pulplogic.MountingHolesLeftOffset
    rightBase := -pulplogic.MountingHolesRightOffset
    bottomY := pulplogic.MountingHoleBottomY1U
    topY := pulplogic.MountingHoleTopY1U
    threshold := pulplogic.ExtraMountingHolesThreshold }

/-- The safe interior rectangle as the spec sentence for `decorativeFill`
claims it: X inset by `2 * horizontalFit` from both the left and right panel
edges, Y inset by the rail keep-out plus the bottom mounting-hole offset
from both top and bottom. -/
def InClaimedSafeRect (p : Panel) (q : Point) : Prop :=
  p.HorizontalFit * 2 ≤ q.x ∧ q.x ≤ p.Width - p.HorizontalFit * 2 ∧
  p.RailHeightFromMountingHole + p.MountingHoleBottomY ≤ q.y ∧
  q.y ≤ p.Height - (p.RailHeightFromMountingHole + p.MountingHoleBottomY)

instance (p : Panel) (q : Point) : Decidable (InClaimedSafeRect p q) :=
  inferInstanceAs (Decidable (_ ∧ _ ∧ _ ∧ _))

/-- The property the claim asserts of each generated feature: a line feature
with both endpoints in the claimed safe rectangle and thickness in
{0, 0.1, 0.2} mm. -/
def ClaimedRandomLine (p : Panel) : Feature → Prop
  | .line l =>
    InClaimedSafeRect p l.start ∧ InClaimedSafeRect p l.stop ∧
      (l.thickness = 0 ∨ l.thickness = 0.1 ∨ l.thickness = 0.2)
  | _ => False

instance (p : Panel) : (f : Feature) → Decidable (ClaimedRandomLine p f)
  | .line _ => inferInstanceAs (Decidable (_ ∧ _ ∧ _))
  | .circle _ => inferInstanceAs (Decidable False)
  | .text _ => inferInstanceAs (Decidable False)
  | .unknown _ => inferInstanceAs (Decidable False)

/-- The rectangle the code actually keeps random-line endpoints in: X inset
by `2 * horizontalFit` on the left only, ranging up to the panel width
(exclusive); Y inset by the rail keep-out plus the bottom mounting-hole
offset from both top and bottom (top bound exclusive). -/
def InSafeRect (p : Panel) (q : Point) : Prop :=
  p.HorizontalFit * 2 ≤ q.x ∧ q.x < p.Width ∧
  p.RailHeightFromMountingHole + p.MountingHoleBottomY ≤ q.y ∧
  q.y < p.Height - (p.RailHeightFromMountingHole + p.MountingHoleBottomY)

/-- The amended per-feature property: a line feature with both endpoints in
the actual safe rectangle and thickness in {0, 0.1, 0.2} mm. -/
def SafeRandomLine (p : Panel) : Feature → Prop
  | .line l =>
    InSafeRect p l.start ∧ InSafeRect p l.stop ∧
      (l.thickness = 0 ∨ l.thickness = 0.1 ∨ l.thickness = 0.2)
  | _ => False

/-! ## Theorems -/

/-- The X interval spanned by random-line coordinates is non-degenerate for
every panel constructed with at least one width unit. -/
lemma xspace_pos (p : Panel) (hw : 1 ≤ p.hp) :
    0 < p.Width - p.HorizontalFit * 2.0 := by
  cases p with
  | eurorack e =>
    by_cases h1 : e.hp = 1
    · simp only [Panel.Width, Panel.HorizontalFit, Eurorack.Width, Eurorack.HorizontalFit, h1,
        if_true, if_pos]
      norm_num
    · have h2 : 2 ≤ e.hp := by simp only [Panel.hp] at hw; omega
      have h2q : (2 : ℚ) ≤ (e.hp : ℚ) := by exact_mod_cast h2
      simp only [Panel.Width, Panel.HorizontalFit, Eurorack.Width, Eurorack.HorizontalFit, h1,
        if_false, eurorack.HP, eurorack.HorizontalFit]
      norm_num
      nlinarith
  | intellijel i =>
    by_cases h1 : i.hp = 1
    · simp only [Panel.Width, Panel.HorizontalFit, Intellijel.Width, Intellijel.HorizontalFit, h1,
        if_true, if_pos]
      norm_num
    · have h2 : 2 ≤ i.hp := by simp only [Panel.hp] at hw; omega
      have h2q : (2 : ℚ) ≤ (i.hp : ℚ) := by exact_mod_cast h2
      simp only [Panel.Width, Panel.HorizontalFit, Intellijel.Width, Intellijel.HorizontalFit, h1,
        if_false, intellijel.HP, eurorack.HP, intellijel.HorizontalFit]
      norm_num
      nlinarith
  | pulplogic q =>
    by_cases h1 : q.hp = 1
    · simp only [Panel.Width, Panel.HorizontalFit, Pulplogic.Width, Pulplogic.HorizontalFit, h1,
        if_true, if_pos]
      norm_num
    · have h2 : 2 ≤ q.hp := by simp only [Panel.hp] at hw; omega
      have h2q : (2 : ℚ) ≤ (q.hp : ℚ) := by exact_mod_cast h2
      simp only [Panel.Width, Panel.HorizontalFit, Pulplogic.Width, Pulplogic.HorizontalFit, h1,
        if_false, pulplogic.HP, eurorack.HP, pulplogic.HorizontalFit, eurorack.HorizontalFit]
      norm_num
      nlinarith

/-- The Y interval spanned by random-line coordinates is non-degenerate for
every format (a fact about the format constants only). -/
lemma yspace_pos (p : Panel) :
    0 < p.Height - (p.RailHeightFromMountingHole + p.MountingHoleBottomY) * 2.0 := by
  cases p with
  | eurorack e =>
    simp [Panel.Height, Panel.RailHeightFromMountingHole, Panel.MountingHoleBottomY,
      Eurorack.Height, Eurorack.RailHeightFromMountingHole, Eurorack.MountingHoleBottomY,
      eurorack.PanelHeight3U, eurorack.RailHeightFromMountingHole, eurorack.MountingHoleBottomY3U]
    norm_num
  | intellijel i =>
    simp [Panel.Height, Panel.RailHeightFromMountingHole, Panel.MountingHoleBottomY,
      Intellijel.Height, Intellijel.RailHeightFromMountingHole, Intellijel.MountingHoleBottomY,
      intellijel.PanelHeight1U, intellijel.RailHeightFromMountingHole,
      eurorack.RailHeightFromMountingHole, intellijel.MountingHoleBottomY1U]
    norm_num
  | pulplogic q =>
    simp [Panel.Height, Panel.RailHeightFromMountingHole, Panel.MountingHoleBottomY,
      Pulplogic.Height, Pulplogic.RailHeightFromMountingHole, Pulplogic.MountingHoleBottomY,
      pulplogic.PanelHeight1U, pulplogic.RailHeightFromMountingHole,
      pulplogic.MountingHoleBottomY1U, pulplogic.inch]
    norm_num

/-- Any point drawn by `rxy` with both uniform draws in `[0,1)` lands in the
actual safe interior rectangle. -/
lemma rxy_safe (p : Panel) (hw : 1 ≤ p.hp) (a b : ℚ)
    (ha0 : 0 ≤ a) (ha1 : a < 1) (hb0 : 0 ≤ b) (hb1 : b < 1) :
    InSafeRect p
      { x := p.HorizontalFit * 2.0 + a * (p.Width - p.HorizontalFit * 2.0),
        y := (p.RailHeightFromMountingHole + p.MountingHoleBottomY) +
          b * (p.Height - (p.RailHeightFromMountingHole + p.MountingHoleBottomY) * 2.0) } := by
  have hxs := xspace_pos p hw
  have hys := yspace_pos p
  unfold InSafeRect
  norm_num
  exact ⟨by nlinarith, by nlinarith, by nlinarith, by nlinarith⟩

/-- Claim C1 (counterexample): the claim is false as stated. For the
Eurorack 8HP panel with one requested line and every uniform draw equal to
0.999 (an admissible `rand.Float64()` value), `randomLines` produces a line
whose endpoints have X = 40.59986 mm, beyond the claimed right inset
`width - 2*horizontalFit = 40.14` mm: the code insets X by double the
horizontal fit on the left only. -/
theorem randomLines_claimed_rect_counterexample :
    ¬ ((randomLines (.eurorack (NewEurorack 8)) 1 (fun _ => 999/1000) (fun _ => 0)).length = 1 ∧
       ∀ f ∈ randomLines (.eurorack (NewEurorack 8)) 1 (fun _ => 999/1000) (fun _ => 0),
         ClaimedRandomLine (.eurorack (NewEurorack 8)) f) := by
  intro h
  have hL : randomLines (.eurorack (NewEurorack 8)) 1 (fun _ => 999/1000) (fun _ => 0) =
      [.line (NewLine ⟨2029993/50000, 9631/80⟩ ⟨2029993/50000, 9631/80⟩ 0)] := by
    norm_num [randomLines, Panel.Width, Panel.HorizontalFit, Panel.RailHeightFromMountingHole,
      Panel.MountingHoleBottomY, Panel.Height, Eurorack.Width, Eurorack.HorizontalFit,
      Eurorack.RailHeightFromMountingHole, Eurorack.MountingHoleBottomY, Eurorack.Height,
      eurorack.HP, eurorack.HorizontalFit, eurorack.RailHeightFromMountingHole,
      eurorack.MountingHoleBottomY3U, eurorack.PanelHeight3U, NewEurorack, NewLine,
      List.range_succ, List.range_zero]
  have hm : Feature.line (NewLine ⟨2029993/50000, 9631/80⟩ ⟨2029993/50000, 9631/80⟩ 0) ∈
      randomLines (.eurorack (NewEurorack 8)) 1 (fun _ => 999/1000) (fun _ => 0) := by
    rw [hL]; exact List.mem_singleton.mpr rfl
  have hc := h.2 _ hm
  simp only [ClaimedRandomLine, NewLine, InClaimedSafeRect] at hc
  have hx := hc.1.2.1
  norm_num [Panel.Width, Panel.HorizontalFit, Eurorack.Width, Eurorack.HorizontalFit,
    eurorack.HP, eurorack.HorizontalFit, NewEurorack] at hx

/-- Claim C1 (amended): for every panel format constructed with at least one
width unit, every count n, and every sequence of random draws (each
`rand.Float64()` result in `[0,1)`), `randomLines` returns exactly n line
features whose two endpoints each lie in the panel's actual safe interior
rectangle — X inset by double the horizontal fit from the left edge only,
ranging up to the panel width; Y inset by the rail keep-out plus the bottom
mounting-hole offset from both top and bottom — and whose thickness is one
of {0.0, 0.1, 0.2} mm. -/
theorem randomLines_safe_interior (p : Panel) (n : Nat) (floats : Nat → ℚ) (ints : Nat → Fin 3)
    (hw : 1 ≤ p.hp) (hf : ∀ k, 0 ≤ floats k ∧ floats k < 1) :
    (randomLines p n floats ints).length = n ∧
    ∀ f ∈ randomLines p n floats ints, SafeRandomLine p f := by
  constructor
  · simp [randomLines]
  · intro f hmem
    simp only [randomLines, List.mem_map, List.mem_range] at hmem
    obtain ⟨i, hi, rfl⟩ := hmem
    simp only [SafeRandomLine, NewLine]
    refine ⟨rxy_safe p hw _ _ (hf _).1 (hf _).2 (hf _).1 (hf _).2,
            rxy_safe p hw _ _ (hf _).1 (hf _).2 (hf _).1 (hf _).2, ?_⟩
    rcases ints i with ⟨v, hv⟩
    interval_cases v <;> norm_num

/-- Claim C1 witness: the amended theorem applied at the Eurorack 8HP panel,
one line, all uniform draws 1/2 and all thickness draws 1. -/
theorem randomLines_safe_interior_witness :
    (randomLines (.eurorack (NewEurorack 8)) 1 (fun _ => 1/2) (fun _ => 1)).length = 1 ∧
    ∀ f ∈ randomLines (.eurorack (NewEurorack 8)) 1 (fun _ => 1/2) (fun _ => 1),
      SafeRandomLine (.eurorack (NewEurorack 8)) f :=
  randomLines_safe_interior (.eurorack (NewEurorack 8)) 1 (fun _ => 1/2) (fun _ => 1)
    (by norm_num [Panel.hp, NewEurorack]) (fun k => by norm_num)

/-- Claim C2 (confirmed): for all three formats and every integer width
hp >= 2, the panel width equals the pitch constant (5.08, shared by all
three formats) times hp; the outline's left edge X is `horizontalFit/2` and
the right edge X is `width - horizontalFit/2`; and the fit never reaches
mounting-hole X coordinates (each equals the fit-free left-offset constant
or fit-free right-pair formula) nor the header/footer anchors (each is
`(width/2, mounting-hole Y)`, fit-free). -/
theorem width_and_outline_fit (hp : Int) (h2 : 2 ≤ hp) :
    (NewEurorack hp).Width = eurorack.HP * (hp : ℚ) ∧
    (NewIntellijel hp).Width = intellijel.HP * (hp : ℚ) ∧
    (NewPulplogic hp).Width = pulplogic.HP * (hp : ℚ) ∧
    (∀ p : Panel, panel.LeftX p = p.HorizontalFit / 2 ∧
      panel.RightX p = p.Width - p.HorizontalFit / 2) ∧
    (∀ q ∈ (NewEurorack hp).MountingHoles,
      q.x = eurorack.MountingHolesLeftOffset ∨
      q.x = eurorack.MountingHolesLeftOffset + eurorack.HP * ((hp : ℚ) - 3)) ∧
    (∀ q ∈ (NewIntellijel hp).MountingHoles,
      q.x = intellijel.MountingHolesLeftOffset ∨
      q.x = intellijel.MountingHolesLeftOffset + intellijel.HP * ((hp : ℚ) - 3)) ∧
    (∀ q ∈ (NewPulplogic hp).MountingHoles,
      q.x = pulplogic.MountingHolesLeftOffset ∨
      q.x = pulplogic.HP * (hp : ℚ) - pulplogic.MountingHolesRightOffset) ∧
    (∀ p : Panel, p.HeaderLocation = { x := p.Width / 2, y := p.MountingHoleTopY } ∧
      p.FooterLocation = { x := p.Width / 2, y := p.MountingHoleBottomY }) := by
  have h1 : hp ≠ 1 := by omega
  refine ⟨?_, ?_, ?_, ?_, ?_, ?_, ?_, ?_⟩
  · simp [NewEurorack, Eurorack.Width, h1]
  · simp [NewIntellijel, Intellijel.Width, h1]
  · simp [NewPulplogic, Pulplogic.Width, h1]
  · intro p
    exact ⟨rfl, rfl⟩
  · intro q hq
    simp only [NewEurorack, Eurorack.MountingHoles, h1, if_false] at hq
    split_ifs at hq with ht
    · simp only [List.mem_append, List.mem_cons, List.not_mem_nil, or_false] at hq
      rcases hq with (hq | hq) | (hq | hq) <;> subst hq
      · left; rfl
      · left; rfl
      · right; push_cast; ring
      · right; push_cast; ring
    · simp only [List.mem_cons, List.not_mem_nil, or_false] at hq
      rcases hq with hq | hq <;> subst hq <;> (left; rfl)
  · intro q hq
    simp only [NewIntellijel, Intellijel.MountingHoles, h1, if_false] at hq
    split_ifs at hq with ht
    · simp only [List.mem_append, List.mem_cons, List.not_mem_nil, or_false] at hq
      rcases hq with (hq | hq) | (hq | hq) <;> subst hq
      · left; rfl
      · left; rfl
      · right; push_cast; ring
      · right; push_cast; ring
    · simp only [List.mem_cons, List.not_mem_nil, or_false] at hq
      rcases hq with hq | hq <;> subst hq <;> (left; rfl)
  · intro q hq
    simp only [NewPulplogic, Pulplogic.MountingHoles, Pulplogic.Width, h1, if_false] at hq
    split_ifs at hq with ht
    · simp only [List.mem_append, List.mem_cons, List.not_mem_nil, or_false] at hq
      rcases hq with (hq | hq) | (hq | hq) <;> subst hq
      · left; rfl
      · left; rfl
      · right; rfl
      · right; rfl
    · simp only [List.mem_cons, List.not_mem_nil, or_false] at hq
      rcases hq with hq | hq <;> subst hq <;> (left; rfl)
  · intro p
    cases p with
    | eurorack e =>
      constructor <;>
        simp [Panel.HeaderLocation, Panel.FooterLocation, Eurorack.HeaderLocation,
          Eurorack.FooterLocation, Panel.Width, Panel.MountingHoleTopY,
          Panel.MountingHoleBottomY]
    | intellijel i =>
      constructor <;>
        simp [Panel.HeaderLocation, Panel.FooterLocation, Intellijel.HeaderLocation,
          Intellijel.FooterLocation, Panel.Width, Panel.MountingHoleTopY,
          Panel.MountingHoleBottomY] <;> norm_num
    | pulplogic q =>
      constructor <;>
        simp [Panel.HeaderLocation, Panel.FooterLocation, Pulplogic.HeaderLocation,
          Pulplogic.FooterLocation, Panel.Width, Panel.MountingHoleTopY,
          Panel.MountingHoleBottomY] <;> norm_num

/-- Claim C2 witness: the theorem applied at hp = 10. -/
theorem width_and_outline_fit_witness :
    (NewEurorack 10).Width = eurorack.HP * ((10 : Int) : ℚ) ∧
    (NewIntellijel 10).Width = intellijel.HP * ((10 : Int) : ℚ) ∧
    (NewPulplogic 10).Width = pulplogic.HP * ((10 : Int) : ℚ) ∧
    (∀ p : Panel, panel.LeftX p = p.HorizontalFit / 2 ∧
      panel.RightX p = p.Width - p.HorizontalFit / 2) ∧
    (∀ q ∈ (NewEurorack 10).MountingHoles,
      q.x = eurorack.MountingHolesLeftOffset ∨
      q.x = eurorack.MountingHolesLeftOffset + eurorack.HP * (((10 : Int) : ℚ) - 3)) ∧
    (∀ q ∈ (NewIntellijel 10).MountingHoles,
      q.x = intellijel.MountingHolesLeftOffset ∨
      q.x = intellijel.MountingHolesLeftOffset + intellijel.HP * (((10 : Int) : ℚ) - 3)) ∧
    (∀ q ∈ (NewPulplogic 10).MountingHoles,
      q.x = pulplogic.MountingHolesLeftOffset ∨
      q.x = pulplogic.HP * ((10 : Int) : ℚ) - pulplogic.MountingHolesRightOffset) ∧
    (∀ p : Panel, p.HeaderLocation = { x := p.Width / 2, y := p.MountingHoleTopY } ∧
      p.FooterLocation = { x := p.Width / 2, y := p.MountingHoleBottomY }) :=
  width_and_outline_fit 10 (by norm_num)

/-- Claim C3 (confirmed): each of the three formats constructed with width
1 unit has Width() = 5.00 mm and HorizontalFit() = 0.00, and every mounting
hole's X coordinate is width/2 = 2.5 mm, which differs from each format's
left-offset constant (7.5 for Eurorack/Intellijel, 5.08 for Pulplogic). -/
theorem one_unit_panels :
    (NewEurorack 1).Width = 5.00 ∧ (NewEurorack 1).HorizontalFit = 0.00 ∧
    (∀ q ∈ (NewEurorack 1).MountingHoles, q.x = (NewEurorack 1).Width / 2 ∧ q.x = 2.5) ∧
    (NewIntellijel 1).Width = 5.00 ∧ (NewIntellijel 1).HorizontalFit = 0.00 ∧
    (∀ q ∈ (NewIntellijel 1).MountingHoles, q.x = (NewIntellijel 1).Width / 2 ∧ q.x = 2.5) ∧
    (NewPulplogic 1).Width = 5.00 ∧ (NewPulplogic 1).HorizontalFit = 0.00 ∧
    (∀ q ∈ (NewPulplogic 1).MountingHoles, q.x = (NewPulplogic 1).Width / 2 ∧ q.x = 2.5) ∧
    (2.5 : ℚ) ≠ eurorack.MountingHolesLeftOffset ∧
    (2.5 : ℚ) ≠ intellijel.MountingHolesLeftOffset ∧
    (2.5 : ℚ) ≠ pulplogic.MountingHolesLeftOffset := by
  refine ⟨by norm_num [NewEurorack, Eurorack.Width], by norm_num [NewEurorack, Eurorack.HorizontalFit],
    ?_, by norm_num [NewIntellijel, Intellijel.Width], by norm_num [NewIntellijel, Intellijel.HorizontalFit],
    ?_, by norm_num [NewPulplogic, Pulplogic.Width], by norm_num [NewPulplogic, Pulplogic.HorizontalFit],
    ?_, by norm_num [eurorack.MountingHolesLeftOffset],
    by norm_num [intellijel.MountingHolesLeftOffset, eurorack.MountingHolesLeftOffset],
    by norm_num [pulplogic.MountingHolesLeftOffset, pulplogic.inch]⟩
  · intro q hq
    norm_num [NewEurorack, Eurorack.MountingHoles, Eurorack.Width,
      eurorack.ExtraMountingHolesThreshold] at hq
    rcases hq with hq | hq <;> subst hq <;>
      norm_num [NewEurorack, Eurorack.Width]
  · intro q hq
    norm_num [NewIntellijel, Intellijel.MountingHoles, Intellijel.Width,
      intellijel.ExtraMountingHolesThreshold] at hq
    rcases hq with hq | hq <;> subst hq <;>
      norm_num [NewIntellijel, Intellijel.Width]
  · intro q hq
    norm_num [NewPulplogic, Pulplogic.MountingHoles, Pulplogic.Width,
      pulplogic.ExtraMountingHolesThreshold] at hq
    rcases hq with hq | hq <;> subst hq <;>
      norm_num [NewPulplogic, Pulplogic.Width]

/-- Claim C4 (confirmed): for every format and width hp >= 1,
MountingHoles returns 4 points when hp is strictly above the format's
extra-hole threshold (8 for Eurorack, 6 for Intellijel and Pulplogic) and 2
points otherwise, and the hole Y coordinates are the format's two Y
constants, independent of hp. -/
theorem mounting_hole_count (p : Panel) (h1 : 1 ≤ p.hp) :
    ((p.MountingHoles).length = if p.threshold < p.hp then 4 else 2) ∧
    ((p.MountingHoles).map Point.y =
      if p.threshold < p.hp then
        [p.MountingHoleBottomY, p.MountingHoleTopY, p.MountingHoleBottomY, p.MountingHoleTopY]
      else [p.MountingHoleBottomY, p.MountingHoleTopY]) ∧
    (∀ e : Eurorack, (Panel.eurorack e).threshold = 8) ∧
    (∀ i : Intellijel, (Panel.intellijel i).threshold = 6) ∧
    (∀ t : Pulplogic, (Panel.pulplogic t).threshold = 6) ∧
    (∀ e : Eurorack, (Panel.eurorack e).MountingHoleBottomY = eurorack.MountingHoleBottomY3U ∧
      (Panel.eurorack e).MountingHoleTopY = eurorack.MountingHoleTopY3U) ∧
    (∀ i : Intellijel, (Panel.intellijel i).MountingHoleBottomY = intellijel.MountingHoleBottomY1U ∧
      (Panel.intellijel i).MountingHoleTopY = intellijel.MountingHoleTopY1U) ∧
    (∀ t : Pulplogic, (Panel.pulplogic t).MountingHoleBottomY = pulplogic.MountingHoleBottomY1U ∧
      (Panel.pulplogic t).MountingHoleTopY = pulplogic.MountingHoleTopY1U) := by
  refine ⟨?_, ?_, fun e => rfl, fun i => rfl, fun t => rfl,
    fun e => ⟨rfl, rfl⟩, fun i => ⟨rfl, rfl⟩, fun t => ⟨rfl, rfl⟩⟩ <;>
  · cases p with
    | eurorack e =>
      simp only [Panel.MountingHoles, Panel.threshold, Panel.hp, Panel.MountingHoleBottomY,
        Panel.MountingHoleTopY, Eurorack.MountingHoles, Eurorack.MountingHoleBottomY,
        Eurorack.MountingHoleTopY]
      split_ifs with ht <;> simp_all [gt_iff_lt]
    | intellijel i =>
      simp only [Panel.MountingHoles, Panel.threshold, Panel.hp, Panel.MountingHoleBottomY,
        Panel.MountingHoleTopY, Intellijel.MountingHoles, Intellijel.MountingHoleBottomY,
        Intellijel.MountingHoleTopY]
      split_ifs with ht <;> simp_all [gt_iff_lt]
    | pulplogic t =>
      simp only [Panel.MountingHoles, Panel.threshold, Panel.hp, Panel.MountingHoleBottomY,
        Panel.MountingHoleTopY, Pulplogic.MountingHoles, Pulplogic.MountingHoleBottomY,
        Pulplogic.MountingHoleTopY]
      split_ifs with ht <;> simp_all [gt_iff_lt]


/-- Claim C4 witness: the theorem applied at the Eurorack 8HP panel. -/
theorem mounting_hole_count_witness :
    (((Panel.eurorack (NewEurorack 8)).MountingHoles).length =
      if (Panel.eurorack (NewEurorack 8)).threshold < (Panel.eurorack (NewEurorack 8)).hp
      then 4 else 2) ∧
    (((Panel.eurorack (NewEurorack 8)).MountingHoles).map Point.y =
      if (Panel.eurorack (NewEurorack 8)).threshold < (Panel.eurorack (NewEurorack 8)).hp then
        [(Panel.eurorack (NewEurorack 8)).MountingHoleBottomY,
         (Panel.eurorack (NewEurorack 8)).MountingHoleTopY,
         (Panel.eurorack (NewEurorack 8)).MountingHoleBottomY,
         (Panel.eurorack (NewEurorack 8)).MountingHoleTopY]
      else [(Panel.eurorack (NewEurorack 8)).MountingHoleBottomY,
            (Panel.eurorack (NewEurorack 8)).MountingHoleTopY]) ∧
    (∀ e : Eurorack, (Panel.eurorack e).threshold = 8) ∧
    (∀ i : Intellijel, (Panel.intellijel i).threshold = 6) ∧
    (∀ t : Pulplogic, (Panel.pulplogic t).threshold = 6) ∧
    (∀ e : Eurorack, (Panel.eurorack e).MountingHoleBottomY = eurorack.MountingHoleBottomY3U ∧
      (Panel.eurorack e).MountingHoleTopY = eurorack.MountingHoleTopY3U) ∧
    (∀ i : Intellijel, (Panel.intellijel i).MountingHoleBottomY = intellijel.MountingHoleBottomY1U ∧
      (Panel.intellijel i).MountingHoleTopY = intellijel.MountingHoleTopY1U) ∧
    (∀ t : Pulplogic, (Panel.pulplogic t).MountingHoleBottomY = pulplogic.MountingHoleBottomY1U ∧
      (Panel.pulplogic t).MountingHoleTopY = pulplogic.MountingHoleTopY1U) :=
  mounting_hole_count (.eurorack (NewEurorack 8)) (by norm_num [Panel.hp, NewEurorack])

/-- Claim C5 (confirmed): the Eurorack format at width 10 (above threshold
8) yields exactly 4 mounting holes; the left pair at X = 7.5 and the right
pair at X = 7.5 + 5.08*(10-3) = 43.06, with the right pair's Y coordinates
(3.00 and 125.5) equal to the left pair's. -/
theorem eurorack_10hp_holes :
    (NewEurorack 10).MountingHoles =
      [{ x := 7.5, y := 3.00 }, { x := 7.5, y := 125.5 },
       { x := 43.06, y := 3.00 }, { x := 43.06, y := 125.5 }] ∧
    ((NewEurorack 10).MountingHoles).length = 4 ∧
    (43.06 : ℚ) = 7.5 + 5.08 * (10 - 3) ∧
    ((10 : Int) > eurorack.ExtraMountingHolesThreshold) := by
  refine ⟨?_, ?_, by norm_num, by norm_num [eurorack.ExtraMountingHolesThreshold]⟩ <;>
    norm_num [NewEurorack, Eurorack.MountingHoles, Eurorack.Width, eurorack.MountingHolesLeftOffset,
      eurorack.HP, eurorack.MountingHoleBottomY3U, eurorack.MountingHoleTopY3U,
      eurorack.PanelHeight3U, eurorack.ExtraMountingHolesThreshold]

/-- Claim C6 (confirmed): the classifier routes every feature by variant
and purpose — a Cutout Line to the outline bucket only, a Marking Line to
the decoration (silkscreen) bucket only, a Cutout Circle to the drill
bucket only, a Marking Circle to the decoration bucket only, a Cutout Text
to the outline bucket plus exactly one non-fatal diagnostic, a Marking Text
to the decoration bucket only; any other variant goes to no bucket, emits a
diagnostic, and classification continues with the rest of the list. -/
theorem classifier_routing :
    (∀ (st : Primitives) (s e : Point) (t : ℚ),
      collectOne st (.line ⟨s, e, t, .Cutout⟩) =
        { st with outlines := st.outlines ++ [.line ⟨s, e, t, .Cutout⟩] }) ∧
    (∀ (st : Primitives) (s e : Point) (t : ℚ),
      collectOne st (.line ⟨s, e, t, .Marking⟩) =
        { st with silkscreens := st.silkscreens ++ [.line ⟨s, e, t, .Marking⟩] }) ∧
    (∀ (st : Primitives) (o : Point) (r : ℚ),
      collectOne st (.circle ⟨o, r, .Cutout⟩) =
        { st with drills := st.drills ++ [.circle ⟨o, r, .Cutout⟩] }) ∧
    (∀ (st : Primitives) (o : Point) (r : ℚ),
      collectOne st (.circle ⟨o, r, .Marking⟩) =
        { st with silkscreens := st.silkscreens ++ [.circle ⟨o, r, .Marking⟩] }) ∧
    (∀ (st : Primitives) (o : Point) (a : Alignment) (s : String) (z r : ℚ),
      collectOne st (.text ⟨o, a, .Cutout, s, z, r⟩) =
        { st with outlines := st.outlines ++ [.text ⟨o, a, .Cutout, s, z, r⟩],
                  warnings := st.warnings + 1 }) ∧
    (∀ (st : Primitives) (o : Point) (a : Alignment) (s : String) (z r : ℚ),
      collectOne st (.text ⟨o, a, .Marking, s, z, r⟩) =
        { st with silkscreens := st.silkscreens ++ [.text ⟨o, a, .Marking, s, z, r⟩] }) ∧
    (∀ (st : Primitives) (pu : Purpose),
      collectOne st (.unknown pu) = { st with warnings := st.warnings + 1 }) ∧
    (∀ (st : Primitives) (x : Feature) (rest : List Feature),
      collectPrimitives (x :: rest) st = collectPrimitives rest (collectOne st x)) :=
  ⟨fun _ _ _ _ => rfl, fun _ _ _ _ => rfl, fun _ _ _ => rfl, fun _ _ _ => rfl,
   fun _ _ _ _ _ _ => rfl, fun _ _ _ _ _ _ => rfl, fun _ _ => rfl, fun _ _ _ => rfl⟩

/-- Appending one element per item in a left fold is the same as appending
the mapped list. -/
lemma foldl_append_map {α β : Type} (g : α → β) :
    ∀ (l : List α) (f : List β), l.foldl (fun acc c => acc ++ [g c]) f = f ++ l.map g := by
  intro l
  induction l with
  | nil => intro f; simp
  | cons a l ih => intro f; simp [List.foldl_cons, ih]

/-- Claim C7 (confirmed): for every format, the outline generator returns
exactly the four Cutout boundary lines (top, bottom, left, right, built
from the horizontal-fit-adjusted left/right corner X coordinates) followed
by exactly one Cutout circle per mounting hole, centred on the hole with
radius `MountingHoleDiameter/2`, and nothing else. -/
theorem outline_features (p : Panel) :
    GeneratePanelOutlineFeatures p =
      [.line { start := { x := p.HorizontalFit / 2, y := p.Height },
               stop := { x := p.Width - p.HorizontalFit / 2, y := p.Height },
               thickness := 0.1, purpose := .Cutout },
       .line { start := { x := p.HorizontalFit / 2, y := 0 },
               stop := { x := p.Width - p.HorizontalFit / 2, y := 0 },
               thickness := 0.1, purpose := .Cutout },
       .line { start := { x := p.HorizontalFit / 2, y := p.Height },
               stop := { x := p.HorizontalFit / 2, y := 0 },
               thickness := 0.1, purpose := .Cutout },
       .line { start := { x := p.Width - p.HorizontalFit / 2, y := p.Height },
               stop := { x := p.Width - p.HorizontalFit / 2, y := 0 },
               thickness := 0.1, purpose := .Cutout }] ++
      (p.MountingHoles).map (fun c =>
        .circle { origin := c, radius := p.MountingHoleDiameter / 2.0, purpose := .Cutout }) := by
  unfold GeneratePanelOutlineFeatures
  rw [foldl_append_map]
  rfl

/-- Claim C8 (confirmed): `panelHeaderFooter` returns the empty list for
two empty strings, one centre-aligned size-16 text feature at the header
anchor `(width/2, top mounting-hole Y)` per non-empty header, and
symmetrically for the footer; features are emitted only for non-empty
strings, and the anchors coincide with the format's header/footer
locations. -/
theorem header_footer_features (p : Panel) (header footer : String) :
    panelHeaderFooter p "" "" = [] ∧
    panelHeaderFooter p header footer =
      (if header ≠ "" then
        [.text { origin := { x := p.Width / 2.0, y := p.MountingHoleTopY },
                 alignment := .Centre, purpose := .Marking, text := header,
                 size := 16.0, rotate := 0 }] else []) ++
      (if footer ≠ "" then
        [.text { origin := { x := p.Width / 2.0, y := p.MountingHoleBottomY },
                 alignment := .Centre, purpose := .Marking, text := footer,
                 size := 16.0, rotate := 0 }] else []) ∧
    ({ x := p.Width / 2.0, y := p.MountingHoleTopY } : Point) = p.HeaderLocation ∧
    ({ x := p.Width / 2.0, y := p.MountingHoleBottomY } : Point) = p.FooterLocation := by
  refine ⟨by simp [panelHeaderFooter], ?_, ?_, ?_⟩
  · by_cases hh : header = "" <;> by_cases hf : footer = "" <;>
      simp [panelHeaderFooter, NewText, WithAlignment, WithSize, hh, hf]
  · cases p with
    | eurorack e =>
      simp [Panel.HeaderLocation, Eurorack.HeaderLocation, Panel.Width, Panel.MountingHoleTopY]
      norm_num
    | intellijel i =>
      simp [Panel.HeaderLocation, Intellijel.HeaderLocation, Panel.Width, Panel.MountingHoleTopY]
    | pulplogic t =>
      simp [Panel.HeaderLocation, Pulplogic.HeaderLocation, Panel.Width, Panel.MountingHoleTopY]
  · cases p with
    | eurorack e =>
      simp [Panel.FooterLocation, Eurorack.FooterLocation, Panel.Width, Panel.MountingHoleBottomY]
      norm_num
    | intellijel i =>
      simp [Panel.FooterLocation, Intellijel.FooterLocation, Panel.Width, Panel.MountingHoleBottomY]
    | pulplogic t =>
      simp [Panel.FooterLocation, Pulplogic.FooterLocation, Panel.Width, Panel.MountingHoleBottomY]

/-- Claim C9 (confirmed): for every width, each format's `MountingHoles` is
extensionally equal to the single parameterized placement rule
`mountingHolesSpec` instantiated with that format's constant table; the
tables differ only in constants (including the per-variant right-base
constant derived from each format's own constants). -/
theorem mounting_holes_parameterized (hp : Int) :
    (NewEurorack hp).MountingHoles = mountingHolesSpec eurorackTable hp ∧
    (NewIntellijel hp).MountingHoles = mountingHolesSpec intellijelTable hp ∧
    (NewPulplogic hp).MountingHoles = mountingHolesSpec pulplogicTable hp := by
  refine ⟨?_, ?_, ?_⟩
  · by_cases ht : hp > eurorack.ExtraMountingHolesThreshold
    · have hx : eurorack.MountingHolesLeftOffset + eurorack.HP * ((hp : ℚ) - 3) =
          (eurorack.MountingHolesLeftOffset - 3 * eurorack.HP) + eurorack.HP * (hp : ℚ) := by
        ring
      simp [NewEurorack, Eurorack.MountingHoles, mountingHolesSpec, eurorackTable,
        Eurorack.Width, ht, hx]
    · simp [NewEurorack, Eurorack.MountingHoles, mountingHolesSpec, eurorackTable,
        Eurorack.Width, ht]
  · by_cases ht : hp > intellijel.ExtraMountingHolesThreshold
    · have hx : intellijel.MountingHolesLeftOffset + intellijel.HP * ((hp : ℚ) - 3) =
          (intellijel.MountingHolesLeftOffset - 3 * intellijel.HP) + intellijel.HP * (hp : ℚ) := by
        ring
      simp [NewIntellijel, Intellijel.MountingHoles, mountingHolesSpec, intellijelTable,
        Intellijel.Width, ht, hx]
    · simp [NewIntellijel, Intellijel.MountingHoles, mountingHolesSpec, intellijelTable,
        Intellijel.Width, ht]
  · by_cases ht : hp > pulplogic.ExtraMountingHolesThreshold
    · have h1 : hp ≠ 1 := by
        simp [pulplogic.ExtraMountingHolesThreshold] at ht; omega
      have hx : pulplogic.HP * (hp : ℚ) - pulplogic.MountingHolesRightOffset =
          -pulplogic.MountingHolesRightOffset + pulplogic.HP * (hp : ℚ) := by ring
      simp [NewPulplogic, Pulplogic.MountingHoles, mountingHolesSpec, pulplogicTable,
        Pulplogic.Width, ht, h1, hx]
    · simp [NewPulplogic, Pulplogic.MountingHoles, mountingHolesSpec, pulplogicTable,
        Pulplogic.Width, ht]

/-- Claim C10 (confirmed): a Text built with no options has alignment
TopLeft (the Go zero value, not Centre), size 14.0, rotation 0, and purpose
Marking; each single option overrides exactly the field it names and leaves
the others at these defaults. -/
theorem new_text_defaults (o : Point) (s : String) :
    NewText o s [] = { origin := o, alignment := .TopLeft, purpose := .Marking,
                       text := s, size := 14.0, rotate := 0 } ∧
    (∀ a, NewText o s [WithAlignment a] =
      { origin := o, alignment := a, purpose := .Marking,
        text := s, size := 14.0, rotate := 0 }) ∧
    (∀ z, NewText o s [WithSize z] =
      { origin := o, alignment := .TopLeft, purpose := .Marking,
        text := s, size := z, rotate := 0 }) ∧
    (∀ r, NewText o s [WithRotation r] =
      { origin := o, alignment := .TopLeft, purpose := .Marking,
        text := s, size := 14.0, rotate := r }) :=
  ⟨rfl, fun _ => rfl, fun _ => rfl, fun _ => rfl⟩

end Frontpanels
